import Mathlib

/-!
Shallow embedding of the VAPE-CRM route planning and stop sequencing engine.

Sources embedded:
* `src/app/services/routes.py` — nearest-neighbour sequencer
  (`optimize_store_sequence`), metrics aggregator (`calculate_route_metrics`),
  stop-list rebuild (`rebuild_route_stops`) and the authorization predicate
  `user_can_edit_route`;
* `src/app/main.py` — the `create_route` and `update_route` endpoint bodies
  (route lifecycle, confirm action, assignment rules).

Modelling conventions:
* Python floats are modelled as exact rationals (`ℚ`).  The haversine
  distance `_haversine_distance_km` is transcendental float code
  (`sin`, `cos`, `atan2`, `sqrt`), so the whole development is parametric in
  the distance function `hav : ℚ → ℚ → ℚ → ℚ → ℚ`; every structural theorem
  is proved for all such functions, which in particular covers the haversine.
* `datetime.strptime`-based date parsing (`_parse_date` in `main.py`) is
  likewise kept as a parameter `dateParse : String → Option ℤ` (a parsed
  date is an opaque integer value); the empty string and the parse-failure
  branches of `_parse_date` are modelled explicitly.
* Python's `round(x, n)` rounds half to even; it is modelled exactly on
  rationals by `roundTo`.
* SQLModel entities become Lean structures carrying the fields the engine
  reads or writes.  Only behaviour-relevant fields are kept (display names,
  timestamps of other tables, etc. are dropped).  `Store.id` is `Option ℤ`
  because the SQLModel primary key is `Optional[int]`; users and routes
  loaded from the database always carry ids, so `User.id`,
  `Route.created_by_user_id` and `Route.assigned_user_id` are plain `ℤ`.
* The FastAPI endpoints mutate ORM objects and then `session.commit()`;
  when an `HTTPException` is raised the commit never runs and the session
  (see `database.get_session`) is closed without committing, so the stored
  route is unchanged.  An endpoint is therefore embedded as a pure function
  returning `Except HttpError Route`: the `ok` value is the committed route
  state, and an `error` leaves the stored state untouched.
-/

/-- Roles of `models.UserRole`. -/
inductive UserRole where
  | ADMIN
  | SALESMAN
  | SUBSALESMAN
  | CLIENT
deriving DecidableEq

/-- Statuses of `models.RouteStatus`. -/
inductive RouteStatus where
  | DRAFT
  | CONFIRMED
deriving DecidableEq

/-- Store target (`models.Store`): identity and optional coordinates. -/
structure Store where
  id : Option ℤ
  latitude : Option ℚ
  longitude : Option ℚ
deriving DecidableEq

/-- User (`models.User`): identity and role. -/
structure User where
  id : ℤ
  role : UserRole
deriving DecidableEq

/-- Route stop (`models.RouteStop`). -/
structure RouteStop where
  sequence : ℕ
  store_id : Option ℤ
  comments : Option String
  travel_distance_km : ℚ
  travel_minutes : ℚ
deriving DecidableEq

/-- Route (`models.Route`) with its owned stop list. -/
structure Route where
  name : String
  status : RouteStatus
  planned_date : Option ℤ
  created_by_user_id : ℤ
  assigned_user_id : ℤ
  notes : Option String
  total_distance_km : ℚ
  total_travel_minutes : ℚ
  updated_at : ℤ
  stops : List RouteStop
deriving DecidableEq

/-- The constant `AVERAGE_SPEED_KMH = 55.0` of `routes.py`. -/
def AVERAGE_SPEED_KMH : ℚ := 55

/-- Embedding of `_travel_minutes` in `routes.py`:
`0.0` for non-positive distance, else `(distance_km / 55.0) * 60.0`. -/
def travel_minutes (distance_km : ℚ) : ℚ :=
  if distance_km ≤ 0 then 0 else distance_km / AVERAGE_SPEED_KMH * 60

/-- Python truthiness defaulting `v or dflt` on an optional float:
`None` and `0.0` are falsy and give `dflt`, any other value is kept.
Used by `optimize_store_sequence` for the coordinate fallbacks. -/
def pyOr (v : Option ℚ) (dflt : ℚ) : ℚ :=
  match v with
  | none => dflt
  | some x => if x = 0 then dflt else x

/-- A store is located when both coordinates are present
(the `store.latitude is not None and store.longitude is not None` test). -/
def isLocated (s : Store) : Bool :=
  s.latitude.isSome && s.longitude.isSome

/-- The `key` lambda of the `min(...)` call in `optimize_store_sequence`:
distance from the current point to the candidate, where the code
substitutes the current point's coordinate for a missing — or, via Python
`or`-falsiness, a zero — candidate coordinate. -/
def codeKey (hav : ℚ → ℚ → ℚ → ℚ → ℚ) (current candidate : Store) : ℚ :=
  let current_lat := pyOr current.latitude 0
  let current_lon := pyOr current.longitude 0
  hav current_lat current_lon
    (pyOr candidate.latitude current_lat) (pyOr candidate.longitude current_lon)

/-- Python's `min(xs, key)` on a non-empty list `x :: xs`: the first element
attaining the minimum key (later elements replace the best only when
strictly smaller). -/
def minByFirst (key : Store → ℚ) (x : Store) (xs : List Store) : Store :=
  xs.foldl (fun best c => if key c < key best then c else best) x

/-- The `while remaining:` loop of `optimize_store_sequence`: repeatedly pick
the key-minimal store, append it, remove it from `remaining` and make it the
new current point.  The fuel argument is the loop bound; it is called with
`fuel = remaining.length`, which is exact because each iteration removes one
element. -/
def nnLoop (hav : ℚ → ℚ → ℚ → ℚ → ℚ) : ℕ → Store → List Store → List Store
  | 0, _, _ => []
  | _ + 1, _, [] => []
  | fuel + 1, current, r :: rs =>
      let next := minByFirst (codeKey hav current) r rs
      next :: nnLoop hav fuel next ((r :: rs).erase next)

/-- Embedding of `optimize_store_sequence` in `routes.py`.  `remaining` is
the located partition, `unordered` the list-comprehension
`[store for store in stores if store not in remaining]`; if no store is
located the input is returned unchanged, otherwise the greedy loop starts at
the first located store and the unordered stores are appended. -/
def optimize_store_sequence (hav : ℚ → ℚ → ℚ → ℚ → ℚ) (stores : List Store) :
    List Store :=
  let remaining := stores.filter fun s => isLocated s
  let unordered := stores.filter fun s => decide (s ∉ remaining)
  match remaining with
  | [] => stores
  | first :: rest => (first :: nnLoop hav rest.length first rest) ++ unordered

/-- Result record of `calculate_route_metrics` (`RouteMetrics` dataclass). -/
structure RouteMetrics where
  total_distance_km : ℚ
  total_travel_minutes : ℚ
deriving DecidableEq

/-- Embedding of `calculate_route_metrics` in `routes.py`: walk consecutive
pairs (`zip(stores, stores[1:])`), skip any leg with a missing coordinate,
and accumulate full-precision distance and travel minutes. -/
def calculate_route_metrics (hav : ℚ → ℚ → ℚ → ℚ → ℚ) (stores : List Store) :
    RouteMetrics :=
  (stores.zip stores.tail).foldl
    (fun acc pc =>
      match pc.1.latitude, pc.1.longitude, pc.2.latitude, pc.2.longitude with
      | some la1, some lo1, some la2, some lo2 =>
          let d := hav la1 lo1 la2 lo2
          ⟨acc.total_distance_km + d, acc.total_travel_minutes + travel_minutes d⟩
      | _, _, _, _ => acc)
    ⟨0, 0⟩

/-- Round half to even to an integer, the behaviour of Python's `round` on an
exactly representable value. -/
def roundHalfEven (q : ℚ) : ℤ :=
  if q - ⌊q⌋ < 1/2 then ⌊q⌋
  else if 1/2 < q - ⌊q⌋ then ⌊q⌋ + 1
  else if 2 ∣ ⌊q⌋ then ⌊q⌋ else ⌊q⌋ + 1

/-- Python's `round(q, dp)` modelled exactly on rationals. -/
def roundTo (dp : ℕ) (q : ℚ) : ℚ :=
  (roundHalfEven (q * (10:ℚ)^dp) : ℚ) / (10:ℚ)^dp

/-- The per-leg distance of the `for index, store in enumerate(ordered, 1)`
loop of `rebuild_route_stops`: zero when either endpoint lacks a
coordinate. -/
def legKm (hav : ℚ → ℚ → ℚ → ℚ → ℚ) (p c : Store) : ℚ :=
  match p.latitude, p.longitude, c.latitude, c.longitude with
  | some la1, some lo1, some la2, some lo2 => hav la1 lo1 la2 lo2
  | _, _, _, _ => 0

/-- The per-leg minutes of the same loop. -/
def legMinutes (hav : ℚ → ℚ → ℚ → ℚ → ℚ) (p c : Store) : ℚ :=
  match p.latitude, p.longitude, c.latitude, c.longitude with
  | some la1, some lo1, some la2, some lo2 => travel_minutes (hav la1 lo1 la2 lo2)
  | _, _, _, _ => 0

/-- The stop-construction loop of `rebuild_route_stops`: 1-based sequence
numbers, leg figures against the previous store (zero for the first stop or
a missing coordinate), comment looked up by store id
(`comment_lookup.get(store.id)`), distance rounded to 2 and minutes to 1
decimal place. -/
def buildStops (hav : ℚ → ℚ → ℚ → ℚ → ℚ) (lookup : ℤ → Option String) :
    Option Store → ℕ → List Store → List RouteStop
  | _, _, [] => []
  | prev, idx, s :: rest =>
      let d : ℚ := match prev with
        | some p => legKm hav p s
        | none => 0
      let m : ℚ := match prev with
        | some p => legMinutes hav p s
        | none => 0
      { sequence := idx
        store_id := s.id
        comments := s.id.bind lookup
        travel_distance_km := roundTo 2 d
        travel_minutes := roundTo 1 m } :: buildStops hav lookup (some s) (idx + 1) rest

/-- Embedding of `rebuild_route_stops` in `routes.py`: order the stores,
recompute the totals (rounded to one decimal place of the full-precision
sums), clear the stop list and rebuild it with `buildStops`.
`existing_comments or {}` means a missing map behaves as the empty map. -/
def rebuild_route_stops (hav : ℚ → ℚ → ℚ → ℚ → ℚ) (route : Route)
    (stores : List Store) (existing_comments : Option (ℤ → Option String)) :
    Route :=
  let ordered := optimize_store_sequence hav stores
  let metrics := calculate_route_metrics hav ordered
  let lookup := existing_comments.getD fun _ => none
  { route with
      total_distance_km := roundTo 1 metrics.total_distance_km
      total_travel_minutes := roundTo 1 metrics.total_travel_minutes
      stops := buildStops hav lookup none 1 ordered }

/-- Embedding of `user_can_edit_route` in `routes.py`. -/
def user_can_edit_route (user : User) (route : Route) : Bool :=
  if user.role = UserRole.ADMIN then true
  else if route.status = RouteStatus.CONFIRMED then false
  else if user.id = route.created_by_user_id ∨ user.id = route.assigned_user_id then true
  else false

/-- An `HTTPException` as raised by `main.py`: status code and detail. -/
structure HttpError where
  status : ℕ
  detail : Option String
deriving DecidableEq

/-- Form fields of the `POST /routes/{route_id}/update` endpoint. -/
structure UpdateRouteForm where
  name : String
  assigned_user_id : Option ℤ
  planned_date : Option String
  notes : Option String
  store_ids : List ℤ
  comment_store_ids : List ℤ
  comments : List String
  action : String
deriving DecidableEq

/-- Form fields of the `POST /routes` endpoint. -/
structure CreateRouteForm where
  name : String
  assigned_user_id : ℤ
  store_ids : List ℤ
  planned_date : Option String
  notes : Option String
deriving DecidableEq

/-- The dict comprehension
`{int(store_id): comment for store_id, comment in zip(comment_store_ids, comments)}`:
a lookup where a later duplicate key overwrites an earlier one. -/
def zipCommentLookup (ids : List ℤ) (cs : List String) : ℤ → Option String :=
  fun i => (ids.zip cs).foldl (fun acc kv => if kv.1 = i then some kv.2 else acc) none

/-- The query `select(Store).where(Store.id.in_(store_ids))` over the store
table: the rows whose id is among the requested ids. -/
def selectStoresByIds (storeDB : List Store) (ids : List ℤ) : List Store :=
  storeDB.filter fun s =>
    match s.id with
    | some i => decide (i ∈ ids)
    | none => false

/-- The `_parse_date` helper of `main.py` applied to a submitted optional
string: `None` and the empty string give no date, a parseable string gives
its value, anything else raises a 400. -/
def parsePlannedDate (dateParse : String → Option ℤ) (value : Option String) :
    Except HttpError (Option ℤ) :=
  match value with
  | none => Except.ok none
  | some s =>
      if s = "" then Except.ok none
      else
        match dateParse s with
        | some d => Except.ok (some d)
        | none => Except.error ⟨400, some "Invalid date format"⟩

/-- The `if planned_date is not None:` block of `update_route`: the route's
planned date is only touched when the form supplied the field. -/
def applyPlannedDate (dateParse : String → Option ℤ) (form : UpdateRouteForm)
    (r : Route) : Except HttpError Route :=
  match form.planned_date with
  | none => Except.ok r
  | some s =>
      match parsePlannedDate dateParse (some s) with
      | Except.ok d => Except.ok { r with planned_date := d }
      | Except.error e => Except.error e

/-- The `if assigned_user_id:` block of `update_route`: Python truthiness
skips `None` and `0`; the proposed assignee must exist and be a salesman or
sub-salesman (400), a sub-salesman may only assign to themselves (403), and
the reassignment is applied only for administrators, salesmen, or the
route's creator. -/
def applyAssignment (current_user : User) (userById : ℤ → Option User)
    (form : UpdateRouteForm) (r : Route) : Except HttpError Route :=
  match form.assigned_user_id with
  | none => Except.ok r
  | some aid =>
      if aid = 0 then Except.ok r
      else
        match userById aid with
        | none => Except.error ⟨400, some "Assigned user must be a Salesman or Sub-Salesman"⟩
        | some au =>
            if au.role ≠ UserRole.SALESMAN ∧ au.role ≠ UserRole.SUBSALESMAN then
              Except.error ⟨400, some "Assigned user must be a Salesman or Sub-Salesman"⟩
            else if current_user.role = UserRole.SUBSALESMAN ∧ aid ≠ current_user.id then
              Except.error ⟨403, some "Sub-Salesmen can only assign routes to themselves"⟩
            else if current_user.role = UserRole.ADMIN ∨ current_user.role = UserRole.SALESMAN
                ∨ current_user.id = r.created_by_user_id then
              Except.ok { r with assigned_user_id := aid }
            else Except.ok r

/-- The stop-list section of `update_route`: a non-empty `store_ids`
rebuilds the whole stop list (after accessibility and validity checks,
with the comment map taken from the form); an empty `store_ids` only
overwrites comments on the existing stops and then requires the route to
still have at least one stop. -/
def applyStops (hav : ℚ → ℚ → ℚ → ℚ → ℚ) (accessibleStoreIds : List ℤ)
    (storeDB : List Store) (form : UpdateRouteForm) (r : Route) :
    Except HttpError Route :=
  if form.store_ids ≠ [] then
    if ¬ (∀ sid ∈ form.store_ids, sid ∈ accessibleStoreIds) then
      Except.error ⟨403, some "One or more stores are not accessible"⟩
    else
      let selected := selectStoresByIds storeDB form.store_ids
      if selected.length ≠ form.store_ids.length then
        Except.error ⟨400, some "Invalid store selection"⟩
      else
        Except.ok (rebuild_route_stops hav r selected
          (some (zipCommentLookup form.comment_store_ids form.comments)))
  else
    let r1 :=
      if form.comments ≠ [] ∧ form.comment_store_ids ≠ [] then
        let lk := zipCommentLookup form.comment_store_ids form.comments
        { r with stops := r.stops.map fun st =>
            match st.store_id with
            | some i =>
                match lk i with
                | some c => { st with comments := some c }
                | none => st
            | none => st }
      else r
    if r1.stops = [] then
      Except.error ⟨400, some "Routes must include at least one store"⟩
    else Except.ok r1

/-- Embedding of the `POST /routes/{route_id}/update` endpoint body
(`update_route` in `main.py`).  The confirm action on an already-confirmed
route redirects immediately without changes; otherwise confirm requires the
administrator role or the assignee, and every other action requires
`user_can_edit_route`.  The `save`/`reoptimize`/`confirm` actions then
overwrite name and notes, stamp `updated_at`, and run the planned-date,
assignment and stop-list sections; confirm finally sets the status.  An
error leaves the stored route unchanged (the commit is never reached). -/
def update_route (hav : ℚ → ℚ → ℚ → ℚ → ℚ) (dateParse : String → Option ℤ)
    (current_user : User) (userById : ℤ → Option User)
    (accessibleStoreIds : List ℤ) (storeDB : List Store)
    (route : Route) (form : UpdateRouteForm) (now : ℤ) :
    Except HttpError Route :=
  if form.action = "confirm" ∧ route.status = RouteStatus.CONFIRMED then
    Except.ok route
  else if form.action = "confirm" ∧
      (current_user.role ≠ UserRole.ADMIN ∧ current_user.id ≠ route.assigned_user_id) then
    Except.error ⟨403, some "Only the assigned salesperson can confirm a route"⟩
  else if form.action ≠ "confirm" ∧ user_can_edit_route current_user route = false then
    Except.error ⟨403, none⟩
  else if form.action = "save" ∨ form.action = "reoptimize" ∨ form.action = "confirm" then
    let r0 := { route with name := form.name, notes := form.notes, updated_at := now }
    match applyPlannedDate dateParse form r0 with
    | Except.error e => Except.error e
    | Except.ok r1 =>
        match applyAssignment current_user userById form r1 with
        | Except.error e => Except.error e
        | Except.ok r2 =>
            match applyStops hav accessibleStoreIds storeDB form r2 with
            | Except.error e => Except.error e
            | Except.ok r3 =>
                Except.ok (if form.action = "confirm" then
                  { r3 with status := RouteStatus.CONFIRMED } else r3)
  else Except.ok route

/-- Embedding of the `POST /routes` endpoint body (`create_route` in
`main.py`): role gate, non-empty store selection, assignee role check,
sub-salesman self-assignment check, store accessibility and validity
checks, then route construction (status `DRAFT`, planned date parsed) and
an initial stop rebuild with no comment map. -/
def create_route (hav : ℚ → ℚ → ℚ → ℚ → ℚ) (dateParse : String → Option ℤ)
    (current_user : User) (userById : ℤ → Option User)
    (accessibleStoreIds : List ℤ) (storeDB : List Store)
    (form : CreateRouteForm) (now : ℤ) : Except HttpError Route :=
  if current_user.role ≠ UserRole.ADMIN ∧ current_user.role ≠ UserRole.SALESMAN
      ∧ current_user.role ≠ UserRole.SUBSALESMAN then
    Except.error ⟨403, none⟩
  else if form.store_ids = [] then
    Except.error ⟨400, some "Select at least one store for the route"⟩
  else
    match userById form.assigned_user_id with
    | none => Except.error ⟨400, some "Assigned user must be a Salesman or Sub-Salesman"⟩
    | some au =>
        if au.role ≠ UserRole.SALESMAN ∧ au.role ≠ UserRole.SUBSALESMAN then
          Except.error ⟨400, some "Assigned user must be a Salesman or Sub-Salesman"⟩
        else if current_user.role = UserRole.SUBSALESMAN
            ∧ form.assigned_user_id ≠ current_user.id then
          Except.error ⟨403, some "Sub-Salesmen can only assign routes to themselves"⟩
        else if ¬ (∀ sid ∈ form.store_ids, sid ∈ accessibleStoreIds) then
          Except.error ⟨403, some "One or more stores are not accessible"⟩
        else
          let selected := selectStoresByIds storeDB form.store_ids
          if selected.length ≠ form.store_ids.length then
            Except.error ⟨400, some "Invalid store selection"⟩
          else
            match parsePlannedDate dateParse form.planned_date with
            | Except.error e => Except.error e
            | Except.ok pd =>
                Except.ok (rebuild_route_stops hav
                  { name := form.name
                    status := RouteStatus.DRAFT
                    planned_date := pd
                    created_by_user_id := current_user.id
                    assigned_user_id := form.assigned_user_id
                    notes := form.notes
                    total_distance_km := 0
                    total_travel_minutes := 0
                    updated_at := now
                    stops := [] }
                  selected none)

/-- Status code of an endpoint outcome (the HTTP error status, if any). -/
def httpStatusOf : Except HttpError Route → Option ℕ
  | Except.ok _ => none
  | Except.error e => some e.status

/-- The stored route after a request: the committed route on success, the
original route when an `HTTPException` aborted the request before the
commit. -/
def committedRoute (original : Route) : Except HttpError Route → Route
  | Except.ok r => r
  | Except.error _ => original

/-- Modelled from the spec (section 4.2, step 3): the greedy selection rule
as the spec words it — among the remaining located stops, the one with
minimum distance to the current point itself (no coordinate substitution),
first minimum on ties. -/
def specKey (hav : ℚ → ℚ → ℚ → ℚ → ℚ) (current candidate : Store) : ℚ :=
  hav (current.latitude.getD 0) (current.longitude.getD 0)
    (candidate.latitude.getD 0) (candidate.longitude.getD 0)

/-- Modelled from the spec: the greedy loop of section 4.2 using `specKey`. -/
def specNNLoop (hav : ℚ → ℚ → ℚ → ℚ → ℚ) : ℕ → Store → List Store → List Store
  | 0, _, _ => []
  | _ + 1, _, [] => []
  | fuel + 1, current, r :: rs =>
      let next := minByFirst (specKey hav current) r rs
      next :: specNNLoop hav fuel next ((r :: rs).erase next)

/-- Modelled from the spec: `orderStops` of section 4.2 — partition,
return the input unchanged when nothing is located, else greedy order the
located stops starting from the first one and append the unlocated stops in
original order. -/
def orderStopsSpec (hav : ℚ → ℚ → ℚ → ℚ → ℚ) (stores : List Store) :
    List Store :=
  let located := stores.filter fun s => isLocated s
  let unlocated := stores.filter fun s => !(isLocated s)
  match located with
  | [] => stores
  | first :: rest => (first :: specNNLoop hav rest.length first rest) ++ unlocated
/-! ### Helper lemmas about the greedy loop -/

/-- Unfolding `minByFirst` over a cons cell. -/
theorem minByFirst_cons (k : Store → ℚ) (x c : Store) (cs : List Store) :
    minByFirst k x (c :: cs) = minByFirst k (if k c < k x then c else x) cs := rfl

/-- The value of `minByFirst` over the empty tail. -/
theorem minByFirst_nil (k : Store → ℚ) (x : Store) : minByFirst k x [] = x := rfl

/-- Python's `min` returns an element of the scanned list. -/
theorem minByFirst_mem (k : Store → ℚ) (x : Store) (xs : List Store) :
    minByFirst k x xs ∈ x :: xs := by
  induction xs generalizing x with
  | nil => simp [minByFirst_nil]
  | cons c cs ih =>
    rw [minByFirst_cons]
    by_cases hc : k c < k x
    · rw [if_pos hc]
      exact List.mem_cons_of_mem x (ih c)
    · rw [if_neg hc]
      rcases List.mem_cons.mp (ih x) with h | h
      · rw [h]
        exact List.mem_cons_self x _
      · exact List.mem_cons_of_mem x (List.mem_cons_of_mem c h)

/-- Two keys that agree on the scanned list give the same minimum. -/
theorem minByFirst_congr (k1 k2 : Store → ℚ) (x : Store) (xs : List Store)
    (h : ∀ a ∈ x :: xs, k1 a = k2 a) : minByFirst k1 x xs = minByFirst k2 x xs := by
  induction xs generalizing x with
  | nil => rfl
  | cons c cs ih =>
    rw [minByFirst_cons, minByFirst_cons]
    have hx := h x (List.mem_cons_self x _)
    have hc := h c (List.mem_cons_of_mem x (List.mem_cons_self c _))
    by_cases hlt : k1 c < k1 x
    · have hlt2 : k2 c < k2 x := by rw [← hx, ← hc]; exact hlt
      rw [if_pos hlt, if_pos hlt2]
      refine ih c fun a ha => h a ?_
      rcases List.mem_cons.mp ha with h1 | h1
      · rw [h1]
        exact List.mem_cons_of_mem x (List.mem_cons_self c _)
      · exact List.mem_cons_of_mem x (List.mem_cons_of_mem c h1)
    · have hlt2 : ¬ k2 c < k2 x := by rw [← hx, ← hc]; exact hlt
      rw [if_neg hlt, if_neg hlt2]
      refine ih x fun a ha => h a ?_
      rcases List.mem_cons.mp ha with h1 | h1
      · rw [h1]
        exact List.mem_cons_self x _
      · exact List.mem_cons_of_mem x (List.mem_cons_of_mem c h1)

/-- Run with enough fuel, the greedy loop is a permutation of its input. -/
theorem nnLoop_perm (hav : ℚ → ℚ → ℚ → ℚ → ℚ) :
    ∀ (fuel : ℕ) (cur : Store) (l : List Store), l.length ≤ fuel →
      List.Perm (nnLoop hav fuel cur l) l := by
  intro fuel
  induction fuel with
  | zero =>
    intro cur l h
    have hl : l = [] := List.length_eq_zero.mp (Nat.le_zero.mp h)
    subst hl
    simp [nnLoop]
  | succ n ih =>
    intro cur l h
    match l with
    | [] => simp [nnLoop]
    | r :: rs =>
      have hm : minByFirst (codeKey hav cur) r rs ∈ r :: rs := minByFirst_mem _ _ _
      have hlen : ((r :: rs).erase (minByFirst (codeKey hav cur) r rs)).length ≤ n := by
        rw [List.length_erase_of_mem hm]
        simpa using Nat.le_of_succ_le_succ h
      have hp := ih (minByFirst (codeKey hav cur) r rs) _ hlen
      show List.Perm
        (minByFirst (codeKey hav cur) r rs ::
          nnLoop hav n (minByFirst (codeKey hav cur) r rs)
            ((r :: rs).erase (minByFirst (codeKey hav cur) r rs)))
        (r :: rs)
      exact (hp.cons _).trans (List.perm_cons_erase hm).symm

/-- The membership-based `unordered` comprehension of the source equals the
plain not-located partition. -/
theorem unordered_filter_eq (stores : List Store) :
    (stores.filter fun s => decide (s ∉ stores.filter fun s => isLocated s))
      = stores.filter fun s => !(isLocated s) := by
  apply List.filter_congr
  intro a ha
  by_cases h : isLocated a = true
  · simp [List.mem_filter, ha, h]
  · simp [List.mem_filter, ha, h]

/-- Closed form of `optimize_store_sequence` with the simplified
`unordered` partition. -/
theorem optimize_store_sequence_eq (hav : ℚ → ℚ → ℚ → ℚ → ℚ) (stores : List Store) :
    optimize_store_sequence hav stores =
      match stores.filter fun s => isLocated s with
      | [] => stores
      | first :: rest =>
          (first :: nnLoop hav rest.length first rest)
            ++ stores.filter fun s => !(isLocated s) := by
  unfold optimize_store_sequence
  dsimp only
  rw [unordered_filter_eq]

/-! ### C3: the sequencer returns a permutation -/

/-- C3: for every input list of stops S (and any distance function standing
for the haversine), `optimize_store_sequence S` is a permutation of `S` —
same multiset of stops, hence of stop identities — and its length equals the
length of `S`. -/
theorem C3_optimize_store_sequence_perm (hav : ℚ → ℚ → ℚ → ℚ → ℚ) (stores : List Store) :
    List.Perm (optimize_store_sequence hav stores) stores ∧
      (optimize_store_sequence hav stores).length = stores.length := by
  have hperm : List.Perm (optimize_store_sequence hav stores) stores := by
    rw [optimize_store_sequence_eq]
    rcases hloc : stores.filter (fun s => isLocated s) with _ | ⟨first, rest⟩
    · exact List.Perm.refl stores
    · have h1 : List.Perm (first :: nnLoop hav rest.length first rest) (first :: rest) :=
        (nnLoop_perm hav rest.length first rest le_rfl).cons first
      have h2 := h1.append_right (stores.filter fun s => !(isLocated s))
      refine h2.trans ?_
      rw [← hloc]
      exact List.filter_append_perm _ stores
  exact ⟨hperm, hperm.length_eq⟩

/-! ### C8: partition behaviour of the sequencer -/

/-- C8: the sequencer partitions its input into located and unlocated stops
preserving original relative order; with no located stop it returns the
input unchanged; otherwise the output is the greedily ordered located stops
(starting with the first located one, and a permutation of the located
partition) followed by the unlocated stops in their original relative
order. -/
theorem C8_optimize_store_sequence_partition (hav : ℚ → ℚ → ℚ → ℚ → ℚ) (stores : List Store) :
    ((stores.filter fun s => isLocated s) = [] →
        optimize_store_sequence hav stores = stores) ∧
    (∀ first rest, (stores.filter fun s => isLocated s) = first :: rest →
        ∃ tail,
          optimize_store_sequence hav stores
              = (first :: tail) ++ (stores.filter fun s => !(isLocated s)) ∧
          List.Perm (first :: tail) (stores.filter fun s => isLocated s)) := by
  constructor
  · intro h
    rw [optimize_store_sequence_eq, h]
  · intro first rest h
    refine ⟨nnLoop hav rest.length first rest, ?_, ?_⟩
    · rw [optimize_store_sequence_eq, h]
    · rw [h]
      exact (nnLoop_perm hav rest.length first rest le_rfl).cons first

/-- Witness for C8 at a concrete input: one located stop among two
unlocated ones; the located stop comes first, the unlocated ones follow in
original order. -/
theorem C8_witness :
    optimize_store_sequence (fun _ _ _ _ => 0)
        [⟨some 1, none, none⟩, ⟨some 2, some 1, some 2⟩, ⟨some 3, none, some 5⟩]
      = [⟨some 2, some 1, some 2⟩] ++ [⟨some 1, none, none⟩, ⟨some 3, none, some 5⟩] := by
  have h := (C8_optimize_store_sequence_partition (fun _ _ _ _ => 0)
    [⟨some 1, none, none⟩, ⟨some 2, some 1, some 2⟩, ⟨some 3, none, some 5⟩]).2
    ⟨some 2, some 1, some 2⟩ [] (by simp [isLocated])
  rcases h with ⟨tail, heq, hperm⟩
  have htail : tail = [] := by
    have h2 := hperm.length_eq
    simp [isLocated] at h2
    exact h2
  subst htail
  rw [heq]
  simp [isLocated]

/-! ### C7: the edit-permission predicate -/

/-- C7: `user_can_edit_route` is false for any non-administrator when the
route is CONFIRMED regardless of creator or assignee; true for every
administrator; and on a non-CONFIRMED route it is true exactly when the
user is an administrator, the creator, or the assignee. -/
theorem C7_user_can_edit_route_characterization :
    (∀ (u : User) (r : Route), u.role = UserRole.ADMIN →
        user_can_edit_route u r = true) ∧
    (∀ (u : User) (r : Route), u.role ≠ UserRole.ADMIN →
        r.status = RouteStatus.CONFIRMED → user_can_edit_route u r = false) ∧
    (∀ (u : User) (r : Route), r.status ≠ RouteStatus.CONFIRMED →
        (user_can_edit_route u r = true ↔
          u.role = UserRole.ADMIN ∨ u.id = r.created_by_user_id
            ∨ u.id = r.assigned_user_id)) := by
  refine ⟨?_, ?_, ?_⟩
  · intro u r h
    simp [user_can_edit_route, h]
  · intro u r hrole hst
    simp [user_can_edit_route, hrole, hst]
  · intro u r hst
    by_cases hrole : u.role = UserRole.ADMIN
    · simp [user_can_edit_route, hrole]
    · simp only [user_can_edit_route, if_neg hrole, if_neg hst]
      constructor
      · intro h
        split at h
        · tauto
        · exact absurd h (by simp)
      · intro h
        rcases h with h | h
        · exact absurd h hrole
        · rw [if_pos h]

/-- Witness for C7: an administrator may edit a CONFIRMED route, a
salesman who created it may not; on a DRAFT route the assignee may edit. -/
theorem C7_witness :
    user_can_edit_route ⟨7, UserRole.ADMIN⟩
        ⟨"r", RouteStatus.CONFIRMED, none, 2, 3, none, 0, 0, 0, []⟩ = true ∧
    user_can_edit_route ⟨2, UserRole.SALESMAN⟩
        ⟨"r", RouteStatus.CONFIRMED, none, 2, 3, none, 0, 0, 0, []⟩ = false ∧
    user_can_edit_route ⟨3, UserRole.SALESMAN⟩
        ⟨"r", RouteStatus.DRAFT, none, 2, 3, none, 0, 0, 0, []⟩ = true := by
  refine ⟨?_, ?_, ?_⟩
  · exact C7_user_can_edit_route_characterization.1 _ _ rfl
  · exact C7_user_can_edit_route_characterization.2.1 _ _ (by simp) rfl
  · exact (C7_user_can_edit_route_characterization.2.2 _ _ (by simp)).mpr
      (Or.inr (Or.inr rfl))
/-! ### C2: the greedy selection rule -/

/-- The Python `or`-default with fallback 0 agrees with plain defaulting. -/
theorem pyOr_zero (v : Option ℚ) : pyOr v 0 = v.getD 0 := by
  rcases v with _ | x
  · rfl
  · by_cases h : x = 0
    · simp [pyOr, h]
    · simp [pyOr, h]

/-- On a located candidate with no zero coordinate the code's selection key
is the spec's distance-to-the-candidate key. -/
theorem codeKey_eq_specKey (hav : ℚ → ℚ → ℚ → ℚ → ℚ) (cur c : Store)
    (hla : c.latitude ≠ some 0) (hlo : c.longitude ≠ some 0)
    (hloc : isLocated c = true) : codeKey hav cur c = specKey hav cur c := by
  rcases hc1 : c.latitude with _ | a
  · exfalso
    simp [isLocated, hc1] at hloc
  rcases hc2 : c.longitude with _ | b
  · exfalso
    simp [isLocated, hc2] at hloc
  have ha : a ≠ 0 := by
    intro h
    exact hla (by rw [hc1, h])
  have hb : b ≠ 0 := by
    intro h
    exact hlo (by rw [hc2, h])
  unfold codeKey specKey
  rw [pyOr_zero, pyOr_zero, hc1, hc2]
  simp [pyOr, ha, hb]

/-- With no zero coordinate among the remaining located stops the code's
greedy loop follows the spec's greedy loop. -/
theorem nnLoop_eq_specNNLoop (hav : ℚ → ℚ → ℚ → ℚ → ℚ) :
    ∀ (fuel : ℕ) (cur : Store) (l : List Store),
      (∀ s ∈ l, isLocated s = true ∧ s.latitude ≠ some 0 ∧ s.longitude ≠ some 0) →
      nnLoop hav fuel cur l = specNNLoop hav fuel cur l := by
  intro fuel
  induction fuel with
  | zero => intro cur l h; rfl
  | succ n ih =>
    intro cur l h
    match l with
    | [] => rfl
    | r :: rs =>
      have hkeys : ∀ a ∈ r :: rs, codeKey hav cur a = specKey hav cur a := by
        intro a ha
        obtain ⟨h1, h2, h3⟩ := h a ha
        exact codeKey_eq_specKey hav cur a h2 h3 h1
      have hmin : minByFirst (codeKey hav cur) r rs = minByFirst (specKey hav cur) r rs :=
        minByFirst_congr _ _ _ _ hkeys
      show minByFirst (codeKey hav cur) r rs ::
            nnLoop hav n (minByFirst (codeKey hav cur) r rs)
              ((r :: rs).erase (minByFirst (codeKey hav cur) r rs)) = _
      rw [hmin]
      rw [ih (minByFirst (specKey hav cur) r rs) _
        (fun s hs => h s (List.mem_of_mem_erase hs))]
      rfl

/-- C2, amended: for every input with at least one located stop, provided no
located stop has a latitude or longitude exactly equal to 0, the sequencer
equals the spec's greedy order (start at the first located stop, repeatedly
append the remaining located stop with minimum distance to the current
point, first minimum on ties, then the unlocated stops); in particular the
output starts with the first located stop of the input. -/
theorem C2_greedy_follows_spec (hav : ℚ → ℚ → ℚ → ℚ → ℚ) (stores : List Store)
    (first : Store) (rest : List Store)
    (hloc : (stores.filter fun s => isLocated s) = first :: rest)
    (hnz : ∀ s ∈ stores, isLocated s = true →
      s.latitude ≠ some 0 ∧ s.longitude ≠ some 0) :
    optimize_store_sequence hav stores = orderStopsSpec hav stores ∧
      (optimize_store_sequence hav stores).head? = some first := by
  have hinv : ∀ s ∈ rest, isLocated s = true ∧ s.latitude ≠ some 0 ∧ s.longitude ≠ some 0 := by
    intro s hs
    have hmem : s ∈ stores.filter fun s => isLocated s := by
      rw [hloc]
      exact List.mem_cons_of_mem first hs
    have h1 : s ∈ stores := List.mem_of_mem_filter hmem
    have h2 : isLocated s = true := by
      have := List.of_mem_filter hmem
      simpa using this
    exact ⟨h2, (hnz s h1 h2).1, (hnz s h1 h2).2⟩
  constructor
  · rw [optimize_store_sequence_eq, orderStopsSpec, hloc]
    dsimp only
    rw [nnLoop_eq_specNNLoop hav rest.length first rest hinv]
  · rw [optimize_store_sequence_eq, hloc]
    rfl

/-- Counterexample to C2 as stated: with a located stop on latitude 0 the
code replaces the zero coordinate by the current point's latitude
(Python `or`-falsiness in `candidate.latitude or current_lat`), so it does
not select the stop with minimum distance to the current point.  Here, with
the squared-Euclidean stand-in for the distance, the true nearest of
`(0,10)` and `(9,10)` to `(10,10)` is `(9,10)`, but the code sequences
`(0,10)` first because its adjusted distance is 0. -/
theorem C2_counterexample :
    optimize_store_sequence (fun la1 lo1 la2 lo2 => (la1 - la2)^2 + (lo1 - lo2)^2)
        [⟨some 1, some 10, some 10⟩, ⟨some 2, some 0, some 10⟩, ⟨some 3, some 9, some 10⟩]
      ≠ orderStopsSpec (fun la1 lo1 la2 lo2 => (la1 - la2)^2 + (lo1 - lo2)^2)
        [⟨some 1, some 10, some 10⟩, ⟨some 2, some 0, some 10⟩, ⟨some 3, some 9, some 10⟩] := by
  have h1 : optimize_store_sequence (fun la1 lo1 la2 lo2 => (la1 - la2)^2 + (lo1 - lo2)^2)
      [⟨some 1, some 10, some 10⟩, ⟨some 2, some 0, some 10⟩, ⟨some 3, some 9, some 10⟩]
      = [⟨some 1, some 10, some 10⟩, ⟨some 2, some 0, some 10⟩, ⟨some 3, some 9, some 10⟩] := by
    rw [optimize_store_sequence_eq]
    norm_num [isLocated, nnLoop, minByFirst, codeKey, pyOr, List.erase_cons]
  have h2 : orderStopsSpec (fun la1 lo1 la2 lo2 => (la1 - la2)^2 + (lo1 - lo2)^2)
      [⟨some 1, some 10, some 10⟩, ⟨some 2, some 0, some 10⟩, ⟨some 3, some 9, some 10⟩]
      = [⟨some 1, some 10, some 10⟩, ⟨some 3, some 9, some 10⟩, ⟨some 2, some 0, some 10⟩] := by
    unfold orderStopsSpec
    norm_num [isLocated, specNNLoop, minByFirst, specKey, List.erase_cons]
  rw [h1, h2]
  simp

/-- Witness for the amended C2 at a concrete zero-free input. -/
theorem C2_witness :
    optimize_store_sequence (fun _ _ _ _ => 0)
        [⟨some 1, some 1, some 1⟩, ⟨some 2, some 1, some 2⟩]
      = orderStopsSpec (fun _ _ _ _ => 0)
        [⟨some 1, some 1, some 1⟩, ⟨some 2, some 1, some 2⟩] ∧
    (optimize_store_sequence (fun _ _ _ _ => 0)
        [⟨some 1, some 1, some 1⟩, ⟨some 2, some 1, some 2⟩]).head?
      = some ⟨some 1, some 1, some 1⟩ := by
  refine C2_greedy_follows_spec (fun _ _ _ _ => 0) _ ⟨some 1, some 1, some 1⟩
    [⟨some 2, some 1, some 2⟩] (by rfl) ?_
  intro s hs _
  rcases List.mem_cons.mp hs with h | h
  · rw [h]
    constructor
    · simp
    · simp
  · rcases List.mem_cons.mp h with h1 | h1
    · rw [h1]
      constructor
      · simp
      · simp
    · simp at h1
/-! ### C1: totals versus per-leg figures -/

/-- Rounding zero gives zero. -/
theorem roundTo_zero (dp : ℕ) : roundTo dp 0 = 0 := by
  simp [roundTo, roundHalfEven]

/-- The step function of the metrics fold adds exactly the per-leg
figures. -/
theorem calculate_route_metrics_fun_eq (hav : ℚ → ℚ → ℚ → ℚ → ℚ) :
    (fun (acc : RouteMetrics) (pc : Store × Store) =>
      match pc.1.latitude, pc.1.longitude, pc.2.latitude, pc.2.longitude with
      | some la1, some lo1, some la2, some lo2 =>
          let d := hav la1 lo1 la2 lo2
          (⟨acc.total_distance_km + d, acc.total_travel_minutes + travel_minutes d⟩ : RouteMetrics)
      | _, _, _, _ => acc)
    = fun (acc : RouteMetrics) (pc : Store × Store) =>
        ⟨acc.total_distance_km + legKm hav pc.1 pc.2,
         acc.total_travel_minutes + legMinutes hav pc.1 pc.2⟩ := by
  funext acc pc
  rcases pc with ⟨p, c⟩
  rcases h1 : p.latitude with _ | la1 <;> rcases h2 : p.longitude with _ | lo1 <;>
    rcases h3 : c.latitude with _ | la2 <;> rcases h4 : c.longitude with _ | lo2 <;>
    simp [h1, h2, h3, h4, legKm, legMinutes]

/-- The simplified metrics fold accumulates the sums of the per-leg
figures. -/
theorem calculate_route_metrics_foldl (hav : ℚ → ℚ → ℚ → ℚ → ℚ)
    (ps : List (Store × Store)) (a b : ℚ) :
    (ps.foldl
      (fun (acc : RouteMetrics) (pc : Store × Store) =>
        ⟨acc.total_distance_km + legKm hav pc.1 pc.2,
         acc.total_travel_minutes + legMinutes hav pc.1 pc.2⟩)
      (⟨a, b⟩ : RouteMetrics))
    = ⟨a + (ps.map fun pc => legKm hav pc.1 pc.2).sum,
       b + (ps.map fun pc => legMinutes hav pc.1 pc.2).sum⟩ := by
  induction ps generalizing a b with
  | nil => simp
  | cons pc ps ih =>
    rw [List.foldl_cons]
    dsimp only
    rw [ih]
    simp [add_assoc]

/-- The metrics of an ordered list are the full-precision sums of its
per-leg figures. -/
theorem calculate_route_metrics_eq (hav : ℚ → ℚ → ℚ → ℚ → ℚ) (stores : List Store) :
    calculate_route_metrics hav stores
      = ⟨((stores.zip stores.tail).map fun pc => legKm hav pc.1 pc.2).sum,
         ((stores.zip stores.tail).map fun pc => legMinutes hav pc.1 pc.2).sum⟩ := by
  unfold calculate_route_metrics
  rw [calculate_route_metrics_fun_eq, calculate_route_metrics_foldl]
  simp

/-- The comments stored by the rebuild loop are the lookups of the store
ids. -/
theorem buildStops_map_comments (hav : ℚ → ℚ → ℚ → ℚ → ℚ) (lookup : ℤ → Option String) :
    ∀ (l : List Store) (prev : Option Store) (idx : ℕ),
      ((buildStops hav lookup prev idx l).map fun st => st.comments)
        = l.map fun s => s.id.bind lookup := by
  intro l
  induction l with
  | nil => intro prev idx; rfl
  | cons s rest ih =>
    intro prev idx
    simp [buildStops, ih]

/-- The store ids of the rebuilt stop list are the ids of the ordered
stores. -/
theorem buildStops_map_store_id (hav : ℚ → ℚ → ℚ → ℚ → ℚ) (lookup : ℤ → Option String) :
    ∀ (l : List Store) (prev : Option Store) (idx : ℕ),
      ((buildStops hav lookup prev idx l).map fun st => st.store_id)
        = l.map fun s => s.id := by
  intro l
  induction l with
  | nil => intro prev idx; rfl
  | cons s rest ih =>
    intro prev idx
    simp [buildStops, ih]

/-- The per-stop distances stored by the rebuild loop, with a known
previous store, are the 2-dp roundings of the per-leg distances. -/
theorem buildStops_map_travel_km (hav : ℚ → ℚ → ℚ → ℚ → ℚ) (lookup : ℤ → Option String) :
    ∀ (l : List Store) (p : Store) (idx : ℕ),
      ((buildStops hav lookup (some p) idx l).map fun st => st.travel_distance_km)
        = ((p :: l).zip l).map fun pc => roundTo 2 (legKm hav pc.1 pc.2) := by
  intro l
  induction l with
  | nil => intro p idx; rfl
  | cons s rest ih =>
    intro p idx
    simp [buildStops, ih]

/-- The per-stop minutes stored by the rebuild loop, with a known previous
store, are the 1-dp roundings of the per-leg minutes. -/
theorem buildStops_map_travel_min (hav : ℚ → ℚ → ℚ → ℚ → ℚ) (lookup : ℤ → Option String) :
    ∀ (l : List Store) (p : Store) (idx : ℕ),
      ((buildStops hav lookup (some p) idx l).map fun st => st.travel_minutes)
        = ((p :: l).zip l).map fun pc => roundTo 1 (legMinutes hav pc.1 pc.2) := by
  intro l
  induction l with
  | nil => intro p idx; rfl
  | cons s rest ih =>
    intro p idx
    simp [buildStops, ih]

/-- C1, amended: after a rebuild the route's totals are the one-decimal
roundings of the full-precision sums of the per-leg figures of the ordered
stop list, while each stop separately stores its leg rounded to 2 decimal
places (distance) and 1 decimal place (minutes).  The totals are therefore
a single rounding of the exact sums, not the sums of the stored (already
rounded) per-leg values. -/
theorem C1_totals_are_rounded_sums (hav : ℚ → ℚ → ℚ → ℚ → ℚ) (route : Route)
    (stores : List Store) (ec : Option (ℤ → Option String)) :
    (rebuild_route_stops hav route stores ec).total_distance_km
        = roundTo 1
          ((((optimize_store_sequence hav stores).zip
              (optimize_store_sequence hav stores).tail).map
            fun pc => legKm hav pc.1 pc.2).sum) ∧
    (rebuild_route_stops hav route stores ec).total_travel_minutes
        = roundTo 1
          ((((optimize_store_sequence hav stores).zip
              (optimize_store_sequence hav stores).tail).map
            fun pc => legMinutes hav pc.1 pc.2).sum) ∧
    (optimize_store_sequence hav stores = [] →
        (rebuild_route_stops hav route stores ec).stops = []) ∧
    (∀ x xs, optimize_store_sequence hav stores = x :: xs →
        ((rebuild_route_stops hav route stores ec).stops.map
            fun st => st.travel_distance_km)
          = roundTo 2 0 :: (((x :: xs).zip xs).map fun pc => roundTo 2 (legKm hav pc.1 pc.2)) ∧
        ((rebuild_route_stops hav route stores ec).stops.map
            fun st => st.travel_minutes)
          = roundTo 1 0 :: (((x :: xs).zip xs).map fun pc => roundTo 1 (legMinutes hav pc.1 pc.2))) := by
  refine ⟨?_, ?_, ?_, ?_⟩
  · simp [rebuild_route_stops, calculate_route_metrics_eq]
  · simp [rebuild_route_stops, calculate_route_metrics_eq]
  · intro h
    simp [rebuild_route_stops, h, buildStops]
  · intro x xs h
    constructor
    · simp only [rebuild_route_stops, h]
      simp [buildStops, buildStops_map_travel_km, legKm]
    · simp only [rebuild_route_stops, h]
      simp [buildStops, buildStops_map_travel_min, legMinutes]

/-- Witness for the amended C1 at a concrete input (a single stop without
coordinates: empty leg list, totals equal to the rounding of the empty
sum). -/
theorem C1_witness :
    (rebuild_route_stops (fun _ _ _ _ => 0)
        ⟨"r", RouteStatus.DRAFT, none, 1, 1, none, 0, 0, 0, []⟩
        [⟨some 9, none, none⟩] none).total_distance_km
      = roundTo 1
          ((((optimize_store_sequence (fun _ _ _ _ => 0) [⟨some 9, none, none⟩]).zip
              (optimize_store_sequence (fun _ _ _ _ => 0) [⟨some 9, none, none⟩]).tail).map
            fun pc => legKm (fun _ _ _ _ => 0) pc.1 pc.2).sum) ∧
    ((rebuild_route_stops (fun _ _ _ _ => 0)
        ⟨"r", RouteStatus.DRAFT, none, 1, 1, none, 0, 0, 0, []⟩
        [⟨some 9, none, none⟩] none).stops.map fun st => st.travel_distance_km)
      = roundTo 2 0 :: (([⟨some 9, none, none⟩].zip ([] : List Store)).map
          fun pc => roundTo 2 (legKm (fun _ _ _ _ => 0) pc.1 pc.2)) := by
  have h := C1_totals_are_rounded_sums (fun _ _ _ _ => 0)
    ⟨"r", RouteStatus.DRAFT, none, 1, 1, none, 0, 0, 0, []⟩
    [⟨some 9, none, none⟩] none
  exact ⟨h.1, (h.2.2.2 ⟨some 9, none, none⟩ [] rfl).1⟩

/-- Counterexample to C1 as stated: with a (stand-in) leg distance of
exactly 1/8 km between two located stops, the stored total is
`round(0.125, 1) = 0.1` while the stop list stores `round(0.125, 2) = 0.12`
as the single non-zero per-leg figure, so the total does not equal the sum
of the stops' `travel_distance_km` values. -/
theorem C1_counterexample :
    (rebuild_route_stops (fun _ _ _ _ => 1/8)
        ⟨"r", RouteStatus.DRAFT, none, 1, 1, none, 0, 0, 0, []⟩
        [⟨some 1, some 1, some 1⟩, ⟨some 2, some 2, some 2⟩] none).total_distance_km
      ≠ (((rebuild_route_stops (fun _ _ _ _ => 1/8)
        ⟨"r", RouteStatus.DRAFT, none, 1, 1, none, 0, 0, 0, []⟩
        [⟨some 1, some 1, some 1⟩, ⟨some 2, some 2, some 2⟩] none).stops.map
          fun st => st.travel_distance_km).sum) := by
  have hopt : optimize_store_sequence (fun _ _ _ _ => (1:ℚ)/8)
      [⟨some 1, some 1, some 1⟩, ⟨some 2, some 2, some 2⟩]
      = [⟨some 1, some 1, some 1⟩, ⟨some 2, some 2, some 2⟩] := by
    rw [optimize_store_sequence_eq]
    norm_num [isLocated, nnLoop, minByFirst, codeKey, pyOr, List.erase_cons]
  have h := C1_totals_are_rounded_sums (fun _ _ _ _ => (1:ℚ)/8)
    ⟨"r", RouteStatus.DRAFT, none, 1, 1, none, 0, 0, 0, []⟩
    [⟨some 1, some 1, some 1⟩, ⟨some 2, some 2, some 2⟩] none
  have htot := h.1
  rw [hopt] at htot
  have hstops := (h.2.2.2 ⟨some 1, some 1, some 1⟩ [⟨some 2, some 2, some 2⟩] hopt).1
  rw [htot, hstops]
  have e1 : legKm (fun _ _ _ _ => (1:ℚ)/8)
      ⟨some 1, some 1, some 1⟩ ⟨some 2, some 2, some 2⟩ = 1/8 := by
    simp [legKm]
  simp only [List.zip_cons_cons, List.zip_nil_right, List.zip_nil_left,
    List.tail_cons, List.map_cons, List.map_nil, List.sum_cons, List.sum_nil,
    e1, roundTo_zero, add_zero, zero_add]
  norm_num [roundTo, roundHalfEven]

/-! ### C5: comment reattachment on rebuild -/

/-- C5: after a rebuild with a prior comment map, every new route stop
carries exactly the comment the map holds for its store id (so ids present
in the map receive their comment, ids without an entry get an absent
comment), and the ids on the new stop list are exactly the ids of the
ordered new store set (so comments keyed by ids no longer present simply do
not occur anywhere on the route). -/
theorem C5_comments_reattached (hav : ℚ → ℚ → ℚ → ℚ → ℚ) (route : Route)
    (stores : List Store) (cl : ℤ → Option String) :
    ((rebuild_route_stops hav route stores (some cl)).stops.map fun st => st.comments)
        = ((rebuild_route_stops hav route stores (some cl)).stops.map
            fun st => st.store_id.bind cl) ∧
    ((rebuild_route_stops hav route stores (some cl)).stops.map fun st => st.store_id)
        = (optimize_store_sequence hav stores).map fun s => s.id := by
  constructor
  · simp only [rebuild_route_stops, Option.getD_some]
    rw [buildStops_map_comments]
    have hid := buildStops_map_store_id hav cl (optimize_store_sequence hav stores) none 1
    calc ((optimize_store_sequence hav stores).map fun s => s.id.bind cl)
        = (((optimize_store_sequence hav stores).map fun s => s.id).map
            fun i => i.bind cl) := by rw [List.map_map]; rfl
      _ = (((buildStops hav cl none 1 (optimize_store_sequence hav stores)).map
            fun st => st.store_id).map fun i => i.bind cl) := by rw [hid]
      _ = ((buildStops hav cl none 1 (optimize_store_sequence hav stores)).map
            fun st => st.store_id.bind cl) := by rw [List.map_map]; rfl
  · simp only [rebuild_route_stops, Option.getD_some]
    exact buildStops_map_store_id hav cl _ none 1
/-! ### C6: the confirm action -/

/-- C6: confirming a DRAFT route succeeds (status becomes CONFIRMED) for
the assignee or an administrator submitting an otherwise plain confirm
form; it fails with a 403 permission error for every other actor; and
confirming an already-CONFIRMED route returns success as a no-op without
re-running any side effect. -/
theorem C6_confirm_action :
    (∀ (hav : ℚ → ℚ → ℚ → ℚ → ℚ) (dp : String → Option ℤ) (cu : User)
        (uById : ℤ → Option User) (acc : List ℤ) (db : List Store)
        (route : Route) (form : UpdateRouteForm) (now : ℤ),
      form.action = "confirm" → route.status = RouteStatus.DRAFT →
      (cu.role = UserRole.ADMIN ∨ cu.id = route.assigned_user_id) →
      form.assigned_user_id = none → form.planned_date = none →
      form.store_ids = [] → form.comments = [] → route.stops ≠ [] →
      update_route hav dp cu uById acc db route form now
        = Except.ok { route with
            name := form.name
            notes := form.notes
            updated_at := now
            status := RouteStatus.CONFIRMED }) ∧
    (∀ (hav : ℚ → ℚ → ℚ → ℚ → ℚ) (dp : String → Option ℤ) (cu : User)
        (uById : ℤ → Option User) (acc : List ℤ) (db : List Store)
        (route : Route) (form : UpdateRouteForm) (now : ℤ),
      form.action = "confirm" → route.status = RouteStatus.DRAFT →
      cu.role ≠ UserRole.ADMIN → cu.id ≠ route.assigned_user_id →
      update_route hav dp cu uById acc db route form now
        = Except.error ⟨403, some "Only the assigned salesperson can confirm a route"⟩) ∧
    (∀ (hav : ℚ → ℚ → ℚ → ℚ → ℚ) (dp : String → Option ℤ) (cu : User)
        (uById : ℤ → Option User) (acc : List ℤ) (db : List Store)
        (route : Route) (form : UpdateRouteForm) (now : ℤ),
      form.action = "confirm" → route.status = RouteStatus.CONFIRMED →
      update_route hav dp cu uById acc db route form now = Except.ok route) := by
  refine ⟨?_, ?_, ?_⟩
  · intro hav dp cu uById acc db route form now hact hst hauth hasg hpd hsid hcom hne
    have hauth2 : ¬ (cu.role ≠ UserRole.ADMIN ∧ cu.id ≠ route.assigned_user_id) := by
      rcases hauth with h | h
      · intro hc
        exact hc.1 h
      · intro hc
        exact hc.2 h
    simp [update_route, hact, hst, hauth2, applyPlannedDate, applyAssignment,
      applyStops, hasg, hpd, hsid, hcom, hne]
  · intro hav dp cu uById acc db route form now hact hst hrole hid
    simp [update_route, hact, hst, hrole, hid]
  · intro hav dp cu uById acc db route form now hact hst
    simp [update_route, hact, hst]

/-- Witness for C6: a concrete DRAFT route assigned to user 5, confirmed by
user 5 with a plain confirm form. -/
theorem C6_witness :
    update_route (fun _ _ _ _ => 0) (fun _ => none) ⟨5, UserRole.SALESMAN⟩
        (fun _ => none) [] []
        ⟨"r", RouteStatus.DRAFT, none, 2, 5, none, 0, 0, 0, [⟨1, some 4, none, 0, 0⟩]⟩
        ⟨"r2", none, none, some "n", [], [], [], "confirm"⟩ 77
      = Except.ok ⟨"r2", RouteStatus.CONFIRMED, none, 2, 5, some "n", 0, 0, 77,
          [⟨1, some 4, none, 0, 0⟩]⟩ := by
  exact C6_confirm_action.1 (fun _ _ _ _ => 0) (fun _ => none) ⟨5, UserRole.SALESMAN⟩
    (fun _ => none) [] []
    ⟨"r", RouteStatus.DRAFT, none, 2, 5, none, 0, 0, 0, [⟨1, some 4, none, 0, 0⟩]⟩
    ⟨"r2", none, none, some "n", [], [], [], "confirm"⟩ 77
    rfl rfl (Or.inr rfl) rfl rfl rfl rfl (by simp)
/-! ### C4: the rebuild is all-or-nothing -/

/-- A successful stop-list section with a non-empty store selection is
exactly the rebuild of the whole stop list. -/
theorem applyStops_ok_rebuild (hav : ℚ → ℚ → ℚ → ℚ → ℚ) (acc : List ℤ)
    (db : List Store) (form : UpdateRouteForm) (r2 r3 : Route)
    (hsid : form.store_ids ≠ [])
    (h : applyStops hav acc db form r2 = Except.ok r3) :
    r3 = rebuild_route_stops hav r2 (selectStoresByIds db form.store_ids)
      (some (zipCommentLookup form.comment_store_ids form.comments)) := by
  rw [applyStops, if_pos hsid] at h
  dsimp only at h
  split_ifs at h with h1 h2 <;> cases h <;> rfl

/-- C4: a `save`/`reoptimize` request carrying a non-empty store selection
either succeeds — and then the resulting stop list is exactly the freshly
rebuilt one (comments re-attached from the form map, totals recomputed) —
or fails, and then the stored route is unchanged; in particular such a
rebuild of a CONFIRMED route by a non-administrator who is neither creator
nor assignee fails with a 403 permission error and leaves the stored stop
list unchanged. -/
theorem C4_rebuild_all_or_nothing :
    (∀ (hav : ℚ → ℚ → ℚ → ℚ → ℚ) (dp : String → Option ℤ) (cu : User)
        (uById : ℤ → Option User) (acc : List ℤ) (db : List Store)
        (route : Route) (form : UpdateRouteForm) (now : ℤ) (r2 : Route),
      (form.action = "save" ∨ form.action = "reoptimize") →
      form.store_ids ≠ [] →
      update_route hav dp cu uById acc db route form now = Except.ok r2 →
      r2.stops = buildStops hav
          (zipCommentLookup form.comment_store_ids form.comments) none 1
          (optimize_store_sequence hav (selectStoresByIds db form.store_ids)) ∧
      r2.total_distance_km = roundTo 1
          (calculate_route_metrics hav
            (optimize_store_sequence hav (selectStoresByIds db form.store_ids))).total_distance_km ∧
      r2.total_travel_minutes = roundTo 1
          (calculate_route_metrics hav
            (optimize_store_sequence hav (selectStoresByIds db form.store_ids))).total_travel_minutes) ∧
    (∀ (hav : ℚ → ℚ → ℚ → ℚ → ℚ) (dp : String → Option ℤ) (cu : User)
        (uById : ℤ → Option User) (acc : List ℤ) (db : List Store)
        (route : Route) (form : UpdateRouteForm) (now : ℤ),
      form.action = "save" → route.status = RouteStatus.CONFIRMED →
      cu.role ≠ UserRole.ADMIN → cu.id ≠ route.created_by_user_id →
      cu.id ≠ route.assigned_user_id →
      update_route hav dp cu uById acc db route form now = Except.error ⟨403, none⟩ ∧
      (committedRoute route (update_route hav dp cu uById acc db route form now)).stops
        = route.stops) ∧
    (∀ (hav : ℚ → ℚ → ℚ → ℚ → ℚ) (dp : String → Option ℤ) (cu : User)
        (uById : ℤ → Option User) (acc : List ℤ) (db : List Store)
        (route : Route) (form : UpdateRouteForm) (now : ℤ) (e : HttpError),
      update_route hav dp cu uById acc db route form now = Except.error e →
      committedRoute route (update_route hav dp cu uById acc db route form now)
        = route) := by
  refine ⟨?_, ?_, ?_⟩
  · intro hav dp cu uById acc db route form now r2 hactor hsid hok
    have hact_ne : form.action ≠ "confirm" := by
      rcases hactor with h | h <;> rw [h] <;> decide
    by_cases hedit : user_can_edit_route cu route = true
    · have hact_or : form.action = "save" ∨ form.action = "reoptimize"
          ∨ form.action = "confirm" := by
        rcases hactor with h | h
        · exact Or.inl h
        · exact Or.inr (Or.inl h)
      rw [update_route, if_neg (by simp [hact_ne]), if_neg (by simp [hact_ne]),
        if_neg (by simp [hedit]), if_pos hact_or] at hok
      dsimp only at hok
      cases h1 : applyPlannedDate dp form
          { route with name := form.name, notes := form.notes, updated_at := now } with
      | error e =>
        rw [h1] at hok
        simp at hok
      | ok r1 =>
        rw [h1] at hok
        dsimp only at hok
        cases h2 : applyAssignment cu uById form r1 with
        | error e =>
          rw [h2] at hok
          simp at hok
        | ok rr2 =>
          rw [h2] at hok
          dsimp only at hok
          cases h3 : applyStops hav acc db form rr2 with
          | error e =>
            rw [h3] at hok
            simp at hok
          | ok r3 =>
            rw [h3] at hok
            dsimp only at hok
            rw [if_neg hact_ne] at hok
            have hr2 : r3 = r2 := Except.ok.inj hok
            have hre := applyStops_ok_rebuild hav acc db form rr2 r3 hsid h3
            rw [← hr2, hre]
            refine ⟨?_, ?_, ?_⟩ <;> simp [rebuild_route_stops]
    · have hedit2 : user_can_edit_route cu route = false := by
        rcases h : user_can_edit_route cu route with _ | _
        · rfl
        · exact absurd h hedit
      rw [update_route, if_neg (by simp [hact_ne]), if_neg (by simp [hact_ne]),
        if_pos ⟨hact_ne, hedit2⟩] at hok
      cases hok
  · intro hav dp cu uById acc db route form now hact hst hrole hc ha
    have hact_ne : form.action ≠ "confirm" := by rw [hact]; decide
    have hedit : user_can_edit_route cu route = false := by
      simp [user_can_edit_route, hrole, hst]
    constructor
    · rw [update_route, if_neg (by simp [hact_ne]), if_neg (by simp [hact_ne]),
        if_pos ⟨hact_ne, hedit⟩]
    · rw [update_route, if_neg (by simp [hact_ne]), if_neg (by simp [hact_ne]),
        if_pos ⟨hact_ne, hedit⟩]
      rfl
  · intro hav dp cu uById acc db route form now e h
    rw [h]
    rfl

/-- Witness for C4 at the claim's end-to-end scenario: a CONFIRMED route
with stops, a non-administrator actor (id 9) who is neither creator (1) nor
assignee (2), submitting a save request with a new store selection: the
request fails with 403 and the stored stop list is unchanged. -/
theorem C4_witness :
    update_route (fun _ _ _ _ => 0) (fun _ => none) ⟨9, UserRole.SALESMAN⟩
        (fun _ => none) [1] [⟨some 1, none, none⟩]
        ⟨"r", RouteStatus.CONFIRMED, none, 1, 2, none, 0, 0, 0,
          [⟨1, some 4, some "keep", 0, 0⟩]⟩
        ⟨"r", none, none, none, [1], [], [], "save"⟩ 9
      = Except.error ⟨403, none⟩ ∧
    (committedRoute
        ⟨"r", RouteStatus.CONFIRMED, none, 1, 2, none, 0, 0, 0,
          [⟨1, some 4, some "keep", 0, 0⟩]⟩
        (update_route (fun _ _ _ _ => 0) (fun _ => none) ⟨9, UserRole.SALESMAN⟩
          (fun _ => none) [1] [⟨some 1, none, none⟩]
          ⟨"r", RouteStatus.CONFIRMED, none, 1, 2, none, 0, 0, 0,
            [⟨1, some 4, some "keep", 0, 0⟩]⟩
          ⟨"r", none, none, none, [1], [], [], "save"⟩ 9)).stops
      = [⟨1, some 4, some "keep", 0, 0⟩] :=
  C4_rebuild_all_or_nothing.2.1 (fun _ _ _ _ => 0) (fun _ => none)
    ⟨9, UserRole.SALESMAN⟩ (fun _ => none) [1] [⟨some 1, none, none⟩]
    ⟨"r", RouteStatus.CONFIRMED, none, 1, 2, none, 0, 0, 0,
      [⟨1, some 4, some "keep", 0, 0⟩]⟩
    ⟨"r", none, none, none, [1], [], [], "save"⟩ 9
    rfl rfl (by decide) (by decide) (by decide)
/-! ### C9: creation and assignment rules -/

/-- The planned-date section only touches the planned date. -/
theorem applyPlannedDate_ok_shape (dp : String → Option ℤ) (form : UpdateRouteForm)
    (r r1 : Route) (h : applyPlannedDate dp form r = Except.ok r1) :
    r1 = { r with planned_date := r1.planned_date } := by
  unfold applyPlannedDate parsePlannedDate at h
  rcases hp : form.planned_date with _ | s
  · rw [hp] at h
    dsimp only at h
    have h' := Except.ok.inj h
    subst h'
    rfl
  · rw [hp] at h
    dsimp only at h
    by_cases h1 : s = ""
    · rw [if_pos h1] at h
      dsimp only at h
      have h' := Except.ok.inj h
      subst h'
      rfl
    · rw [if_neg h1] at h
      rcases hq : dp s with _ | d
      · rw [hq] at h
        dsimp only at h
        cases h
      · rw [hq] at h
        dsimp only at h
        have h' := Except.ok.inj h
        subst h'
        rfl

/-- The assignment section only touches the assignee. -/
theorem applyAssignment_ok_shape (cu : User) (uById : ℤ → Option User)
    (form : UpdateRouteForm) (r r2 : Route)
    (h : applyAssignment cu uById form r = Except.ok r2) :
    r2 = { r with assigned_user_id := r2.assigned_user_id } := by
  unfold applyAssignment at h
  rcases ha : form.assigned_user_id with _ | aid
  · rw [ha] at h
    dsimp only at h
    have h' := Except.ok.inj h
    subst h'
    rfl
  · rw [ha] at h
    dsimp only at h
    by_cases h0 : aid = 0
    · rw [if_pos h0] at h
      have h' := Except.ok.inj h
      subst h'
      rfl
    · rw [if_neg h0] at h
      rcases hu : uById aid with _ | au
      · rw [hu] at h
        dsimp only at h
        cases h
      · rw [hu] at h
        dsimp only at h
        split_ifs at h with hh1 hh2 hh3
        · cases h
          rfl
        · cases h
          rfl

/-- A change of assignee by the assignment section implies a
representative-roled target passed all the checks. -/
theorem applyAssignment_ok_changed (cu : User) (uById : ℤ → Option User)
    (form : UpdateRouteForm) (r r2 : Route)
    (h : applyAssignment cu uById form r = Except.ok r2)
    (hne : r2.assigned_user_id ≠ r.assigned_user_id) :
    ∃ aid au, form.assigned_user_id = some aid ∧ uById aid = some au ∧
      (au.role = UserRole.SALESMAN ∨ au.role = UserRole.SUBSALESMAN) ∧
      r2.assigned_user_id = aid := by
  unfold applyAssignment at h
  rcases ha : form.assigned_user_id with _ | aid
  · rw [ha] at h
    dsimp only at h
    have h' := Except.ok.inj h
    subst h'
    exact absurd rfl hne
  · rw [ha] at h
    dsimp only at h
    by_cases h0 : aid = 0
    · rw [if_pos h0] at h
      have h' := Except.ok.inj h
      subst h'
      exact absurd rfl hne
    · rw [if_neg h0] at h
      rcases hu : uById aid with _ | au
      · rw [hu] at h
        dsimp only at h
        cases h
      · rw [hu] at h
        dsimp only at h
        split_ifs at h with hh1 hh2 hh3
        · have hrole : au.role = UserRole.SALESMAN ∨ au.role = UserRole.SUBSALESMAN := by
            tauto
          cases h
          exact ⟨aid, au, rfl, hu, hrole, rfl⟩
        · cases h
          exact absurd rfl hne

/-- The stop-list section never touches the assignee or any metadata other
than the totals and the stop list. -/
theorem applyStops_ok_shape (hav : ℚ → ℚ → ℚ → ℚ → ℚ) (acc : List ℤ)
    (db : List Store) (form : UpdateRouteForm) (r r3 : Route)
    (h : applyStops hav acc db form r = Except.ok r3) :
    r3 = { r with
      total_distance_km := r3.total_distance_km
      total_travel_minutes := r3.total_travel_minutes
      stops := r3.stops } := by
  unfold applyStops at h
  dsimp only at h
  split_ifs at h with h1 h2 h3 h4 h5
  · cases h
    simp [rebuild_route_stops]
  · cases h
    rfl
  · cases h
    rfl
/-- C9, amended: route creation is permitted only to administrators and the
two representative roles (any other role is rejected with a 403); a route
may only be assigned — at creation or on a successful update that changes
the assignee — to a user holding one of the two representative roles; and a
sub-salesman attempting to assign a route to another user holding a
representative role is rejected with a 403 permission error (when the
proposed assignee is not a representative, the request is instead rejected
by the earlier role validation with a 400, which is what the
counterexample exhibits). -/
theorem C9_creation_and_assignment :
    (∀ (hav : ℚ → ℚ → ℚ → ℚ → ℚ) (dp : String → Option ℤ) (cu : User)
        (uById : ℤ → Option User) (acc : List ℤ) (db : List Store)
        (form : CreateRouteForm) (now : ℤ),
      cu.role = UserRole.CLIENT →
      create_route hav dp cu uById acc db form now = Except.error ⟨403, none⟩) ∧
    (∀ (hav : ℚ → ℚ → ℚ → ℚ → ℚ) (dp : String → Option ℤ) (cu : User)
        (uById : ℤ → Option User) (acc : List ℤ) (db : List Store)
        (form : CreateRouteForm) (now : ℤ) (r2 : Route),
      create_route hav dp cu uById acc db form now = Except.ok r2 →
      ∃ au, uById form.assigned_user_id = some au ∧
        (au.role = UserRole.SALESMAN ∨ au.role = UserRole.SUBSALESMAN) ∧
        r2.assigned_user_id = form.assigned_user_id) ∧
    (∀ (hav : ℚ → ℚ → ℚ → ℚ → ℚ) (dp : String → Option ℤ) (cu : User)
        (uById : ℤ → Option User) (acc : List ℤ) (db : List Store)
        (route : Route) (form : UpdateRouteForm) (now : ℤ) (r2 : Route),
      update_route hav dp cu uById acc db route form now = Except.ok r2 →
      r2.assigned_user_id ≠ route.assigned_user_id →
      ∃ aid au, form.assigned_user_id = some aid ∧ uById aid = some au ∧
        (au.role = UserRole.SALESMAN ∨ au.role = UserRole.SUBSALESMAN) ∧
        r2.assigned_user_id = aid) ∧
    (∀ (hav : ℚ → ℚ → ℚ → ℚ → ℚ) (dp : String → Option ℤ) (cu : User)
        (uById : ℤ → Option User) (acc : List ℤ) (db : List Store)
        (form : CreateRouteForm) (now : ℤ) (au : User),
      cu.role = UserRole.SUBSALESMAN → form.store_ids ≠ [] →
      form.assigned_user_id ≠ cu.id →
      uById form.assigned_user_id = some au →
      (au.role = UserRole.SALESMAN ∨ au.role = UserRole.SUBSALESMAN) →
      create_route hav dp cu uById acc db form now
        = Except.error ⟨403, some "Sub-Salesmen can only assign routes to themselves"⟩) ∧
    (∀ (hav : ℚ → ℚ → ℚ → ℚ → ℚ) (dp : String → Option ℤ) (cu : User)
        (uById : ℤ → Option User) (acc : List ℤ) (db : List Store)
        (route : Route) (form : UpdateRouteForm) (now : ℤ) (aid : ℤ) (au : User),
      cu.role = UserRole.SUBSALESMAN → form.action = "save" →
      user_can_edit_route cu route = true → form.planned_date = none →
      form.assigned_user_id = some aid → aid ≠ 0 → aid ≠ cu.id →
      uById aid = some au →
      (au.role = UserRole.SALESMAN ∨ au.role = UserRole.SUBSALESMAN) →
      update_route hav dp cu uById acc db route form now
        = Except.error ⟨403, some "Sub-Salesmen can only assign routes to themselves"⟩) := by
  refine ⟨?_, ?_, ?_, ?_, ?_⟩
  · intro hav dp cu uById acc db form now hrole
    simp [create_route, hrole]
  · intro hav dp cu uById acc db form now r2 hok
    rw [create_route] at hok
    by_cases hg : cu.role ≠ UserRole.ADMIN ∧ cu.role ≠ UserRole.SALESMAN
        ∧ cu.role ≠ UserRole.SUBSALESMAN
    · rw [if_pos hg] at hok
      cases hok
    rw [if_neg hg] at hok
    by_cases he : form.store_ids = []
    · rw [if_pos he] at hok
      cases hok
    rw [if_neg he] at hok
    rcases hu : uById form.assigned_user_id with _ | au
    · rw [hu] at hok
      dsimp only at hok
      cases hok
    rw [hu] at hok
    dsimp only at hok
    split_ifs at hok with h1 h2 h3 h4
    rcases hp : parsePlannedDate dp form.planned_date with e | pd
    · rw [hp] at hok
      dsimp only at hok
      cases hok
    · rw [hp] at hok
      dsimp only at hok
      cases hok
      have hrole : au.role = UserRole.SALESMAN ∨ au.role = UserRole.SUBSALESMAN := by
        tauto
      exact ⟨au, rfl, hrole, by simp [rebuild_route_stops]⟩
  · intro hav dp cu uById acc db route form now r2 hok hch
    rw [update_route] at hok
    by_cases c1 : form.action = "confirm" ∧ route.status = RouteStatus.CONFIRMED
    · rw [if_pos c1] at hok
      cases hok
      exact absurd rfl hch
    rw [if_neg c1] at hok
    by_cases c2 : form.action = "confirm"
        ∧ (cu.role ≠ UserRole.ADMIN ∧ cu.id ≠ route.assigned_user_id)
    · rw [if_pos c2] at hok
      cases hok
    rw [if_neg c2] at hok
    by_cases c3 : form.action ≠ "confirm" ∧ user_can_edit_route cu route = false
    · rw [if_pos c3] at hok
      cases hok
    rw [if_neg c3] at hok
    by_cases c4 : form.action = "save" ∨ form.action = "reoptimize"
        ∨ form.action = "confirm"
    case neg =>
      rw [if_neg c4] at hok
      cases hok
      exact absurd rfl hch
    rw [if_pos c4] at hok
    dsimp only at hok
    rcases h1 : applyPlannedDate dp form
        { route with name := form.name, notes := form.notes, updated_at := now }
      with e | r1
    · rw [h1] at hok
      cases hok
    rw [h1] at hok
    dsimp only at hok
    rcases h2 : applyAssignment cu uById form r1 with e | rr2
    · rw [h2] at hok
      cases hok
    rw [h2] at hok
    dsimp only at hok
    rcases h3 : applyStops hav acc db form rr2 with e | r3
    · rw [h3] at hok
      cases hok
    rw [h3] at hok
    dsimp only at hok
    cases hok
    have e0 : r1.assigned_user_id = route.assigned_user_id := by
      rw [applyPlannedDate_ok_shape dp form _ r1 h1]
    have e3 : r3.assigned_user_id = rr2.assigned_user_id := by
      rw [applyStops_ok_shape hav acc db form rr2 r3 h3]
    have efin : (if form.action = "confirm"
        then { r3 with status := RouteStatus.CONFIRMED } else r3).assigned_user_id
        = r3.assigned_user_id := by
      by_cases hc : form.action = "confirm"
      · rw [if_pos hc]
      · rw [if_neg hc]
    by_cases hch2 : rr2.assigned_user_id = r1.assigned_user_id
    · exfalso
      apply hch
      rw [efin, e3, hch2, e0]
    · obtain ⟨aid, au, ha, hu, hrole, heq⟩ :=
        applyAssignment_ok_changed cu uById form r1 rr2 h2 hch2
      refine ⟨aid, au, ha, hu, hrole, ?_⟩
      rw [efin, e3, heq]
  · intro hav dp cu uById acc db form now au hcu hsid hne hu hroles
    rw [create_route,
      if_neg (by simp [hcu]), if_neg hsid, hu]
    dsimp only
    rw [if_neg (by tauto), if_pos ⟨hcu, hne⟩]
  · intro hav dp cu uById acc db route form now aid au hcu hact hedit hpd ha h0 hne hu hroles
    have hact_ne : form.action ≠ "confirm" := by rw [hact]; decide
    rw [update_route, if_neg (by simp [hact_ne]), if_neg (by simp [hact_ne]),
      if_neg (by simp [hedit]), if_pos (Or.inl hact)]
    dsimp only
    have hp1 : applyPlannedDate dp form
        { route with name := form.name, notes := form.notes, updated_at := now }
        = Except.ok { route with name := form.name, notes := form.notes, updated_at := now } := by
      simp [applyPlannedDate, hpd]
    rw [hp1]
    dsimp only
    have hp2 : applyAssignment cu uById form
        { route with name := form.name, notes := form.notes, updated_at := now }
        = Except.error ⟨403, some "Sub-Salesmen can only assign routes to themselves"⟩ := by
      unfold applyAssignment
      rw [ha]
      dsimp only
      rw [if_neg h0, hu]
      dsimp only
      rw [if_neg (by tauto), if_pos ⟨hcu, hne⟩]
    rw [hp2]

/-- Counterexample to C9 as stated: a sub-salesman (id 1) assigning a new
route to a different user (id 2) whose role is CLIENT is rejected by the
assignee-role validation with a 400, not with the permission error the
claim requires for every other-user assignment (the role check precedes
the self-assignment check). -/
theorem C9_counterexample :
    create_route (fun _ _ _ _ => 0) (fun _ => none) ⟨1, UserRole.SUBSALESMAN⟩
        (fun i => if i = 2 then some ⟨2, UserRole.CLIENT⟩ else none) [5] []
        ⟨"r", 2, [5], none, none⟩ 0
      = Except.error ⟨400, some "Assigned user must be a Salesman or Sub-Salesman"⟩ := by
  norm_num [create_route]
  decide

/-- Witness for the amended C9: the same sub-salesman assigning to a
different salesman-roled user (id 2) is rejected with the 403 permission
error. -/
theorem C9_witness :
    create_route (fun _ _ _ _ => 0) (fun _ => none) ⟨1, UserRole.SUBSALESMAN⟩
        (fun i => if i = 2 then some ⟨2, UserRole.SALESMAN⟩ else none) [5] []
        ⟨"r", 2, [5], none, none⟩ 0
      = Except.error ⟨403, some "Sub-Salesmen can only assign routes to themselves"⟩ :=
  C9_creation_and_assignment.2.2.2.1 (fun _ _ _ _ => 0) (fun _ => none)
    ⟨1, UserRole.SUBSALESMAN⟩
    (fun i => if i = 2 then some ⟨2, UserRole.SALESMAN⟩ else none) [5] []
    ⟨"r", 2, [5], none, none⟩ 0 ⟨2, UserRole.SALESMAN⟩
    rfl (by decide) (by decide) (by norm_num) (Or.inl rfl)
/-! ### C10: confirm is not only a status change -/

/-- C10: an authorized confirm on a DRAFT route does not only set the
status: it overwrites the route's name and notes with the submitted form
values, stamps `updated_at`, and in the same call can change the planned
date, reassign the route, and rebuild the entire stop list. -/
theorem C10_confirm_overwrites_metadata (hav : ℚ → ℚ → ℚ → ℚ → ℚ)
    (dp : String → Option ℤ) (cu : User) (uById : ℤ → Option User)
    (acc : List ℤ) (db : List Store) (route : Route) (form : UpdateRouteForm)
    (now : ℤ) (aid : ℤ) (au : User) (pd : String) (d : ℤ)
    (hact : form.action = "confirm") (hst : route.status = RouteStatus.DRAFT)
    (hcu : cu.role = UserRole.ADMIN)
    (hpd : form.planned_date = some pd) (hpd2 : pd ≠ "") (hdp : dp pd = some d)
    (ha : form.assigned_user_id = some aid) (h0 : aid ≠ 0)
    (hu : uById aid = some au) (hau : au.role = UserRole.SALESMAN)
    (hsid : form.store_ids ≠ [])
    (hacc : ∀ sid ∈ form.store_ids, sid ∈ acc)
    (hlen : (selectStoresByIds db form.store_ids).length = form.store_ids.length) :
    ∃ r2, update_route hav dp cu uById acc db route form now = Except.ok r2 ∧
      r2.name = form.name ∧ r2.notes = form.notes ∧ r2.updated_at = now ∧
      r2.planned_date = some d ∧ r2.assigned_user_id = aid ∧
      r2.status = RouteStatus.CONFIRMED ∧
      r2.stops = buildStops hav
        (zipCommentLookup form.comment_store_ids form.comments) none 1
        (optimize_store_sequence hav (selectStoresByIds db form.store_ids)) := by
  rw [update_route, if_neg (by simp [hst]), if_neg (by simp [hcu]),
    if_neg (by simp [hact]), if_pos (Or.inr (Or.inr hact))]
  dsimp only
  have hp1 : applyPlannedDate dp form
      { route with name := form.name, notes := form.notes, updated_at := now }
      = Except.ok { route with
          name := form.name
          notes := form.notes
          updated_at := now
          planned_date := some d } := by
    unfold applyPlannedDate parsePlannedDate
    rw [hpd]
    dsimp only
    rw [if_neg hpd2, hdp]
  rw [hp1]
  dsimp only
  have hp2 : applyAssignment cu uById form
      { route with
        name := form.name
        notes := form.notes
        updated_at := now
        planned_date := some d }
      = Except.ok { route with
          name := form.name
          notes := form.notes
          updated_at := now
          planned_date := some d
          assigned_user_id := aid } := by
    unfold applyAssignment
    rw [ha]
    dsimp only
    rw [if_neg h0, hu]
    dsimp only
    rw [if_neg (by simp [hau]), if_neg (by simp [hcu]), if_pos (Or.inl hcu)]
  rw [hp2]
  dsimp only
  have hp3 : applyStops hav acc db form
      { route with
        name := form.name
        notes := form.notes
        updated_at := now
        planned_date := some d
        assigned_user_id := aid }
      = Except.ok (rebuild_route_stops hav
          { route with
            name := form.name
            notes := form.notes
            updated_at := now
            planned_date := some d
            assigned_user_id := aid }
          (selectStoresByIds db form.store_ids)
          (some (zipCommentLookup form.comment_store_ids form.comments))) := by
    unfold applyStops
    rw [if_pos hsid]
    dsimp only
    rw [if_neg (not_not_intro hacc), if_neg (fun hcon => hcon hlen)]
  rw [hp3]
  dsimp only
  rw [if_pos hact]
  refine ⟨_, rfl, ?_, ?_, ?_, ?_, ?_, ?_, ?_⟩ <;> simp [rebuild_route_stops]

/-- Witness for C10: a concrete admin confirm that renames the route,
replaces the notes, sets a planned date, reassigns to salesman 7 and
rebuilds the stop list from store 5 in the same call. -/
theorem C10_witness :
    ∃ r2, update_route (fun _ _ _ _ => 0)
        (fun s => if s = "2024-01-02" then some 20240102 else none)
        ⟨1, UserRole.ADMIN⟩
        (fun i => if i = 7 then some ⟨7, UserRole.SALESMAN⟩ else none)
        [5] [⟨some 5, none, none⟩]
        ⟨"Old", RouteStatus.DRAFT, none, 1, 2, some "old", 0, 0, 0,
          [⟨1, some 9, some "gone", 0, 0⟩]⟩
        ⟨"New", some 7, some "2024-01-02", some "nn", [5], [5], ["hi"], "confirm"⟩ 42
      = Except.ok r2 ∧
      r2.name = "New" ∧ r2.notes = some "nn" ∧ r2.updated_at = 42 ∧
      r2.planned_date = some 20240102 ∧ r2.assigned_user_id = 7 ∧
      r2.status = RouteStatus.CONFIRMED ∧
      r2.stops = buildStops (fun _ _ _ _ => 0) (zipCommentLookup [5] ["hi"]) none 1
        (optimize_store_sequence (fun _ _ _ _ => 0) [⟨some 5, none, none⟩]) := by
  have h := C10_confirm_overwrites_metadata (fun _ _ _ _ => 0)
    (fun s => if s = "2024-01-02" then some 20240102 else none)
    ⟨1, UserRole.ADMIN⟩
    (fun i => if i = 7 then some ⟨7, UserRole.SALESMAN⟩ else none)
    [5] [⟨some 5, none, none⟩]
    ⟨"Old", RouteStatus.DRAFT, none, 1, 2, some "old", 0, 0, 0,
      [⟨1, some 9, some "gone", 0, 0⟩]⟩
    ⟨"New", some 7, some "2024-01-02", some "nn", [5], [5], ["hi"], "confirm"⟩ 42
    7 ⟨7, UserRole.SALESMAN⟩ "2024-01-02" 20240102
    rfl rfl rfl rfl (by decide) (by decide) rfl (by decide) (by decide) rfl
    (by decide) (by decide) (by decide)
  obtain ⟨r2, h1, h2⟩ := h
  dsimp only at h2
  have hsel : selectStoresByIds [(⟨some 5, none, none⟩ : Store)] [5]
      = [⟨some 5, none, none⟩] := by
    simp [selectStoresByIds]
  rw [hsel] at h2
  exact ⟨r2, h1, h2⟩
